import Mathlib

/-!
Verification of the lawsuits-dashboard query core (`src/streamlit_app.py`).

The file shallowly embeds the four query functions of the source —
`load_metadata`, `load_time_series`, `load_paginated_data`, `get_total_count`
— over an explicit list of lawsuit rows, and proves the specified invariants
about them.

Modelling decisions (all driven by the SQL the source emits):
* A Postgres date is a pair `(m, d)`: `m` is the month index
  (`year * 12 + month`), `d` the day of month.  Truncation to the month
  (DATE_TRUNC) keeps `m` and resets the day, so the month axis lives
  entirely in `m`; date comparison (BETWEEN, ORDER BY) is lexicographic
  on `(m, d)`.
* A JSON projection such as the country key of `gpt_summary` is
  `Option`-valued: `none` when `gpt_summary` is SQL NULL or lacks the key.
  A NULL operand makes IN and BETWEEN non-true, so those clauses reject
  the row — the source applies no COALESCE inside its WHERE clauses.
* The source interpolates country/agency values into the query text as a
  quoted IN list, joining the values with a quote-comma-quote separator
  and no escaping.  The literal list the SQL lexer then extracts from that
  text is modelled by `sqlInLits`: split the quoted fragment at every
  quote character and keep the tokens standing inside quotes.
* ORDER BY filed DESC with LIMIT and OFFSET fixes only the `filed` order;
  rows with equal `filed` come back in an unspecified order.  The page
  fetch is therefore modelled as the predicate `validPage` relating the
  inputs to every output the query may produce.
-/

namespace LawsuitDash

/-- A Postgres date: month index (`year * 12 + month`) and day of month. -/
structure PgDate where
  m : Int
  d : Int
deriving DecidableEq

/-- Date comparison, lexicographic on (month index, day). -/
def dateLE (a b : PgDate) : Bool :=
  decide (a.m < b.m) || (decide (a.m = b.m) && decide (a.d ≤ b.d))

/-- The fields of the `gpt_summary` JSON document the queries project out;
each is `none` when the key is absent from the document. -/
structure GptSummary where
  likely_country_of_origin : Option String
  score_221g : Option Int
deriving DecidableEq

/-- One row of the `lawsuits` relation (the columns the queries touch).
`law360_data` content is never read, only its NULL-ness. -/
structure Lawsuit where
  title : String
  filed : PgDate
  gpt_summary : Option GptSummary
  law360_data : Option Unit
  agency_manually_set : Option String
deriving DecidableEq

/-- `gpt_summary is not null AND law360_data is not null`. -/
def eligible (r : Lawsuit) : Bool :=
  r.gpt_summary.isSome && r.law360_data.isSome

/-- Projection of the country key out of `gpt_summary` (NULL when the
document is NULL or the key absent). -/
def countryOfRaw (r : Lawsuit) : Option String :=
  r.gpt_summary.bind (·.likely_country_of_origin)

/-- Projection of the 221g score key out of `gpt_summary`, cast to a
number, NULL-propagating. -/
def scoreRaw (r : Lawsuit) : Option Int :=
  r.gpt_summary.bind (·.score_221g)

/-- The single-quote character (code point 39) that delimits SQL string
literals. -/
def sqlQuote : Char := Char.ofNat 39

/-- Split a character list at every quote character, keeping the chunks
between consecutive quotes (the accumulator holds the current chunk,
reversed). -/
def splitQuote : List Char → List Char → List (List Char)
  | [], acc => [acc.reverse]
  | c :: rest, acc =>
    if c = sqlQuote then acc.reverse :: splitQuote rest [] else splitQuote rest (c :: acc)

/-- The elements at odd positions of a list. -/
def oddIdx {α : Type} : List α → List α
  | [] => []
  | [_] => []
  | _ :: b :: t => b :: oddIdx t

/-- The string literals a SQL lexer extracts from the fragment the source
interpolates into the IN list: the Python code quotes the joined values,
and the lexer reads the tokens standing between quote characters.  No
escaping happens anywhere in the source, so a value that itself contains
quote characters contributes several literals. -/
def sqlInLits (vs : List String) : List String :=
  (oddIdx (splitQuote
    (sqlQuote :: (List.intercalate [sqlQuote, ',', sqlQuote] (vs.map String.toList) ++ [sqlQuote]))
    [])).map (fun cs => String.mk cs)

/-- Python truthiness of an optional list argument: `None` and `[]` are
falsy, so the corresponding WHERE clause is only added otherwise. -/
def truthyList (o : Option (List String)) : Bool :=
  !(o.getD []).isEmpty

/-- Membership of the projected country field in the interpolated IN
list — non-true when the projected field is NULL. -/
def countryClause (vs : List String) (r : Lawsuit) : Bool :=
  match countryOfRaw r with
  | some c => (sqlInLits vs).contains c
  | none => false

/-- Membership of `agency_manually_set` in the interpolated IN list —
non-true when the column is NULL. -/
def agencyClause (vs : List String) (r : Lawsuit) : Bool :=
  match r.agency_manually_set with
  | some a => (sqlInLits vs).contains a
  | none => false

/-- BETWEEN test on the projected numeric score — non-true when the
projected field is NULL. -/
def scoreClause (lo hi : Int) (r : Lawsuit) : Bool :=
  match scoreRaw r with
  | some x => decide (lo ≤ x) && decide (x ≤ hi)
  | none => false

/-- The WHERE clause shared by `load_time_series`, `load_paginated_data`
and `get_total_count`: the two non-NULL checks and the filed-date BETWEEN
are always present; the country / agency / score clauses are appended only
when the corresponding Python argument is truthy. -/
def matchesFilter (s e : PgDate) (co ag : Option (List String))
    (sr : Option (Int × Int)) (r : Lawsuit) : Bool :=
  r.gpt_summary.isSome &&
  r.law360_data.isSome &&
  (dateLE s r.filed && dateLE r.filed e) &&
  (if truthyList co then countryClause (co.getD []) r else true) &&
  (if truthyList ag then agencyClause (ag.getD []) r else true) &&
  (match sr with
   | some (lo, hi) => scoreClause lo hi r
   | none => true)

/-- The recursive CTE `date_range`: anchor row `trunc(start)`, then keep
adding one month while the last month is `< trunc(end)`.  The fuel argument
only bounds the recursion depth; `monthAxis` passes enough fuel that the
guard, not the fuel, stops the recursion, exactly as in the CTE. -/
def monthAxisGo (e : Int) : Nat → Int → List Int
  | 0, s => [s]
  | fuel + 1, s => if s < e then s :: monthAxisGo e fuel (s + 1) else [s]

/-- All months generated by the CTE, from `trunc(start)` on. -/
def monthAxis (s e : Int) : List Int :=
  monthAxisGo e (e - s).toNat s

/-- `load_time_series`: per month of the CTE axis, the count of rows
matching the WHERE clause whose month truncation of `filed` equals that
month; months without matching rows get `COALESCE(lc.count, 0) = 0`; the
result is ordered by month as generated. -/
def load_time_series (db : List Lawsuit) (s e : PgDate) (co ag : Option (List String))
    (sr : Option (Int × Int)) : List (Int × Nat) :=
  (monthAxis s.m e.m).map (fun mo =>
    (mo, (db.filter (matchesFilter s e co ag sr)).countP (fun r => decide (r.filed.m = mo))))

/-- `get_total_count`: `SELECT COUNT(*)` under the shared WHERE clause. -/
def get_total_count (db : List Lawsuit) (s e : PgDate) (co ag : Option (List String))
    (sr : Option (Int × Int)) : Nat :=
  (db.filter (matchesFilter s e co ag sr)).length

/-- The ORDER BY filed DESC relation: an earlier row has a `filed` at
least that of every later row. -/
def filedDesc (a b : Lawsuit) : Prop :=
  dateLE b.filed a.filed = true

instance filedDesc_decidable : DecidableRel filedDesc := fun a b =>
  inferInstanceAs (Decidable (dateLE b.filed a.filed = true))

/-- `load_paginated_data` as a relation between its inputs and every
output the SQL may return: some ordering `l` of the filtered rows that is
sorted by `filed` descending (ties in arbitrary order — the query has no
secondary sort key), of which the output is the slice
`OFFSET (page-1)*ps LIMIT ps`. -/
def validPage (db : List Lawsuit) (s e : PgDate) (co ag : Option (List String))
    (sr : Option (Int × Int)) (page ps : Nat) (out : List Lawsuit) : Prop :=
  ∃ l : List Lawsuit,
    l.Perm (db.filter (matchesFilter s e co ag sr)) ∧
    List.Sorted filedDesc l ∧
    out = (l.drop ((page - 1) * ps)).take ps

/-- Tuple selected by `load_metadata`: the filed date, the country
COALESCEd to Unknown, `agency_manually_set` COALESCEd to Unknown, and the
score COALESCEd to 0. -/
def deriveMeta (r : Lawsuit) : PgDate × String × String × Int :=
  (r.filed, (countryOfRaw r).getD ("Unknown"),
   r.agency_manually_set.getD ("Unknown"), (scoreRaw r).getD 0)

/-- `load_metadata`: `SELECT DISTINCT` of the derived tuple over the
eligible rows. -/
def load_metadata (db : List Lawsuit) : List (PgDate × String × String × Int) :=
  ((db.filter eligible).map deriveMeta).dedup

/-- The contiguous month range `[a, b]` (just `[a]` when `b ≤ a`),
ascending — the canonical month axis of the specification. -/
def monthsFromTo (a b : Int) : List Int :=
  (List.range ((b - a).toNat + 1)).map (fun (i : Nat) => a + (i : Int))

/-- The filter with no restriction on the country dimension: the shared
WHERE clause of the source with the country conjunct omitted. -/
def matchesNoCountry (s e : PgDate) (ag : Option (List String))
    (sr : Option (Int × Int)) (r : Lawsuit) : Bool :=
  r.gpt_summary.isSome &&
  r.law360_data.isSome &&
  (dateLE s r.filed && dateLE r.filed e) &&
  (if truthyList ag then agencyClause (ag.getD []) r else true) &&
  (match sr with
   | some (lo, hi) => scoreClause lo hi r
   | none => true)

/-- The filter with no restriction on the agency dimension. -/
def matchesNoAgency (s e : PgDate) (co : Option (List String))
    (sr : Option (Int × Int)) (r : Lawsuit) : Bool :=
  r.gpt_summary.isSome &&
  r.law360_data.isSome &&
  (dateLE s r.filed && dateLE r.filed e) &&
  (if truthyList co then countryClause (co.getD []) r else true) &&
  (match sr with
   | some (lo, hi) => scoreClause lo hi r
   | none => true)

/-- The filter with no restriction on the score dimension. -/
def matchesNoScore (s e : PgDate) (co ag : Option (List String))
    (r : Lawsuit) : Bool :=
  r.gpt_summary.isSome &&
  r.law360_data.isSome &&
  (dateLE s r.filed && dateLE r.filed e) &&
  (if truthyList co then countryClause (co.getD []) r else true) &&
  (if truthyList ag then agencyClause (ag.getD []) r else true)

/-- Derived country dimension of the specification data model: the country
key of `gpt_summary`, defaulting to Unknown when absent. -/
def countryD (r : Lawsuit) : String :=
  (countryOfRaw r).getD ("Unknown")

/-- Derived agency dimension: `agency_manually_set` defaulted to Unknown. -/
def agencyD (r : Lawsuit) : String :=
  r.agency_manually_set.getD ("Unknown")

/-- Derived score dimension: the 221g score defaulted to 0. -/
def scoreD (r : Lawsuit) : Int :=
  (scoreRaw r).getD 0

/-- A grouping dimension of the time series: country or agency. -/
inductive GroupDim where
  | country : GroupDim
  | agency : GroupDim
deriving DecidableEq

/-- Value of a grouping dimension on a record. -/
def dimVal : GroupDim → Lawsuit → String
  | GroupDim.country, r => countryD r
  | GroupDim.agency, r => agencyD r

/-- Modelled from the spec: which dimension a grouped time series breaks
out by — country and agency are mutually exclusive, and country takes
precedence when both selections are non-empty (spec section 4.2 step 3). -/
def chosenDim (co ag : List String) : GroupDim :=
  if co.isEmpty then GroupDim.agency else GroupDim.country

/-- Modelled from the spec: the filter predicate of spec section 4.1 as
the grouped aggregator uses it — eligibility, filed date within the range,
the derived country and agency dimensions restricted by the non-empty
selections, and the derived score within the bounds when provided.  The
grouped deployment variant this belongs to is absent from src. -/
def specMatches (s e : PgDate) (co ag : List String)
    (sr : Option (Int × Int)) (r : Lawsuit) : Bool :=
  eligible r &&
  (dateLE s r.filed && dateLE r.filed e) &&
  (co.isEmpty || co.contains (countryD r)) &&
  (ag.isEmpty || ag.contains (agencyD r)) &&
  (match sr with
   | some (lo, hi) => decide (lo ≤ scoreD r) && decide (scoreD r ≤ hi)
   | none => true)

/-- Modelled from the spec: the grouped time-series aggregator of spec
section 4.2 step 3, a feature of the second deployment variant that is
absent from src.  Enumerate the month axis, collect the distinct dimension
values present among the filtered records, and emit one bucket per
month-value pair with the matching count (0 when no record falls in the
pair). -/
def grouped_time_series (db : List Lawsuit) (s e : PgDate) (co ag : List String)
    (sr : Option (Int × Int)) : List (Int × String × Nat) :=
  (monthsFromTo s.m e.m).flatMap (fun mo =>
    ((db.filter (specMatches s e co ag sr)).map (dimVal (chosenDim co ag))).dedup.map (fun v =>
      (mo, v, (db.filter (specMatches s e co ag sr)).countP
        (fun r => decide (r.filed.m = mo) && decide (dimVal (chosenDim co ag) r = v)))))

/-! Helper lemmas about dates, the month axis, and counting. -/

theorem dateLE_month_le {a b : PgDate} (h : dateLE a b = true) : a.m ≤ b.m := by
  simp only [dateLE, Bool.or_eq_true, Bool.and_eq_true, decide_eq_true_eq] at h
  omega

theorem dateLE_trans {a b c : PgDate} (h1 : dateLE a b = true) (h2 : dateLE b c = true) :
    dateLE a c = true := by
  simp only [dateLE, Bool.or_eq_true, Bool.and_eq_true, decide_eq_true_eq] at h1 h2 ⊢
  omega

theorem dateLE_antisymm {a b : PgDate} (h1 : dateLE a b = true) (h2 : dateLE b a = true) :
    a = b := by
  cases a; cases b
  simp only [dateLE, Bool.or_eq_true, Bool.and_eq_true, decide_eq_true_eq] at h1 h2
  simp only [PgDate.mk.injEq]
  omega

theorem monthAxisGo_eq (e : Int) : ∀ (n : Nat) (s : Int), (e - s).toNat ≤ n →
    monthAxisGo e n s = (List.range ((e - s).toNat + 1)).map (fun (i : Nat) => s + (i : Int)) := by
  intro n
  induction n with
  | zero =>
    intro s h
    have hk : (e - s).toNat = 0 := Nat.le_zero.mp h
    rw [hk]
    simp [monthAxisGo, List.range_succ]
  | succ n ih =>
    intro s h
    by_cases hlt : s < e
    · have hk : (e - s).toNat = (e - (s + 1)).toNat + 1 := by omega
      have h1 : (e - (s + 1)).toNat ≤ n := by omega
      rw [monthAxisGo, if_pos hlt, ih (s + 1) h1, hk]
      conv_rhs => rw [List.range_succ_eq_map]
      simp only [List.map_cons, List.map_map]
      congr 1
      · simp
      · apply List.map_congr_left
        intro i _
        simp only [Function.comp_apply]
        push_cast
        ring
    · have hk : (e - s).toNat = 0 := by omega
      rw [monthAxisGo, if_neg hlt, hk]
      simp [List.range_succ]

theorem monthAxis_eq_of_le {s e : Int} (h : s ≤ e) : monthAxis s e = monthsFromTo s e := by
  rw [monthAxis, monthAxisGo_eq e _ s (Nat.le_refl _), monthsFromTo]

theorem monthAxis_of_ge {s e : Int} (h : e ≤ s) : monthAxis s e = [s] := by
  have hk : (e - s).toNat = 0 := by omega
  rw [monthAxis, hk, monthAxisGo]

theorem mem_monthsFromTo {a b x : Int} (h : a ≤ b) :
    x ∈ monthsFromTo a b ↔ a ≤ x ∧ x ≤ b := by
  simp only [monthsFromTo, List.mem_map, List.mem_range]
  constructor
  · rintro ⟨i, hi, rfl⟩
    omega
  · rintro ⟨h1, h2⟩
    exact ⟨(x - a).toNat, by omega, by omega⟩

theorem chain'_monthsFromTo (a b : Int) : List.Chain' (· < ·) (monthsFromTo a b) := by
  rw [monthsFromTo, List.chain'_map]
  rw [List.chain'_range_succ]
  intro m _
  omega

theorem nodup_monthsFromTo (a b : Int) : (monthsFromTo a b).Nodup := by
  apply (List.nodup_range _).map
  intro i j hij
  simpa using hij

theorem monthAxis_nodup (s e : Int) : (monthAxis s e).Nodup := by
  rcases le_or_lt s e with h | h
  · rw [monthAxis_eq_of_le h]
    exact nodup_monthsFromTo s e
  · rw [monthAxis_of_ge h.le]
    simp

theorem matchesFilter_parts {s e : PgDate} {co ag : Option (List String)}
    {sr : Option (Int × Int)} {r : Lawsuit} (h : matchesFilter s e co ag sr r = true) :
    r.gpt_summary.isSome = true ∧ r.law360_data.isSome = true ∧
    dateLE s r.filed = true ∧ dateLE r.filed e = true := by
  simp only [matchesFilter, Bool.and_eq_true] at h
  tauto

theorem sum_map_zero {α : Type} (ms : List α) : (ms.map (fun _ => (0 : Nat))).sum = 0 := by
  induction ms with
  | nil => rfl
  | cons a t ih => simp [ih]

theorem sum_map_add {α : Type} (ms : List α) (f g : α → Nat) :
    (ms.map (fun x => f x + g x)).sum = (ms.map f).sum + (ms.map g).sum := by
  induction ms with
  | nil => rfl
  | cons a t ih =>
    simp only [List.map_cons, List.sum_cons, ih]
    omega

theorem sum_ite_key_not_mem {α : Type} [DecidableEq α] (ms : List α) (x : α) (h : x ∉ ms) :
    (ms.map (fun mo => if x = mo then 1 else 0)).sum = 0 := by
  induction ms with
  | nil => rfl
  | cons a t ih =>
    simp only [List.mem_cons, not_or] at h
    simp only [List.map_cons, List.sum_cons, if_neg h.1, ih h.2]

theorem sum_ite_key {α : Type} [DecidableEq α] (ms : List α) (x : α)
    (hn : ms.Nodup) (hm : x ∈ ms) :
    (ms.map (fun mo => if x = mo then 1 else 0)).sum = 1 := by
  induction ms with
  | nil => simp at hm
  | cons a t ih =>
    rcases List.mem_cons.mp hm with rfl | hx
    · simp only [List.map_cons, List.sum_cons, if_pos rfl]
      rw [sum_ite_key_not_mem t x ((List.nodup_cons.mp hn).1)]
      simp
    · have hax : x ≠ a := by
        rintro rfl
        exact (List.nodup_cons.mp hn).1 hx
      simp only [List.map_cons, List.sum_cons, if_neg hax,
        ih (List.nodup_cons.mp hn).2 hx]

theorem sum_countP_key {α β : Type} [DecidableEq β] (ms : List β) (F : List α) (key : α → β)
    (hn : ms.Nodup) (hc : ∀ r ∈ F, key r ∈ ms) :
    (ms.map (fun mo => F.countP (fun r => decide (key r = mo)))).sum = F.length := by
  induction F with
  | nil =>
    simp only [List.countP_nil]
    exact sum_map_zero ms
  | cons r F ih =>
    have hcr : key r ∈ ms := hc r (List.mem_cons_self r F)
    have hcF : ∀ x ∈ F, key x ∈ ms := fun x hx => hc x (List.mem_cons_of_mem r hx)
    simp only [List.countP_cons, decide_eq_true_eq]
    rw [sum_map_add ms (fun mo => F.countP (fun x => decide (key x = mo)))
      (fun mo => if key r = mo then 1 else 0), ih hcF, sum_ite_key ms (key r) hn hcr]
    simp [List.length_cons]

/-! Claim theorems. -/

/-- C1: for every start and end date with start ≤ end, the ungrouped
time-series result of `load_time_series` is exactly the contiguous sequence
of calendar months from the month truncation of start to the month
truncation of end inclusive, ordered ascending (strictly increasing, hence
no gaps and no duplicates), and every month carries the count of matching
records — an explicit 0 when no record matches. -/
theorem ungrouped_axis_complete (db : List Lawsuit) (s e : PgDate)
    (co ag : Option (List String)) (sr : Option (Int × Int))
    (h : dateLE s e = true) :
    (load_time_series db s e co ag sr).map Prod.fst = monthsFromTo s.m e.m
    ∧ (∀ x : Int, x ∈ (load_time_series db s e co ag sr).map Prod.fst ↔ s.m ≤ x ∧ x ≤ e.m)
    ∧ List.Chain' (· < ·) ((load_time_series db s e co ag sr).map Prod.fst)
    ∧ ∀ p ∈ load_time_series db s e co ag sr,
        p.2 = (db.filter (matchesFilter s e co ag sr)).countP
          (fun r => decide (r.filed.m = p.1)) := by
  have hme : s.m ≤ e.m := dateLE_month_le h
  have haxis : (load_time_series db s e co ag sr).map Prod.fst = monthsFromTo s.m e.m := by
    rw [load_time_series, List.map_map, monthAxis_eq_of_le hme]
    have hid : (Prod.fst ∘ fun mo =>
        (mo, (db.filter (matchesFilter s e co ag sr)).countP (fun r => decide (r.filed.m = mo))))
        = id := rfl
    rw [hid, List.map_id]
  refine ⟨haxis, ?_, ?_, ?_⟩
  · intro x
    rw [haxis]
    exact mem_monthsFromTo hme
  · rw [haxis]
    exact chain'_monthsFromTo s.m e.m
  · intro p hp
    rw [load_time_series] at hp
    obtain ⟨mo, _, rfl⟩ := List.mem_map.mp hp
    rfl

/-- Witness for C1 at a concrete input: a three-month range. -/
theorem ungrouped_axis_complete_witness :
    dateLE ⟨100, 5⟩ ⟨102, 3⟩ = true
    ∧ ((load_time_series [] ⟨100, 5⟩ ⟨102, 3⟩ none none none).map Prod.fst
        = monthsFromTo (PgDate.mk 100 5).m (PgDate.mk 102 3).m
      ∧ (∀ x : Int, x ∈ (load_time_series [] ⟨100, 5⟩ ⟨102, 3⟩ none none none).map Prod.fst
          ↔ (PgDate.mk 100 5).m ≤ x ∧ x ≤ (PgDate.mk 102 3).m)
      ∧ List.Chain' (· < ·) ((load_time_series [] ⟨100, 5⟩ ⟨102, 3⟩ none none none).map Prod.fst)
      ∧ ∀ p ∈ load_time_series [] ⟨100, 5⟩ ⟨102, 3⟩ none none none,
          p.2 = (List.filter (matchesFilter ⟨100, 5⟩ ⟨102, 3⟩ none none none) []).countP
            (fun r => decide (r.filed.m = p.1))) :=
  ⟨by decide, ungrouped_axis_complete [] ⟨100, 5⟩ ⟨102, 3⟩ none none none (by decide)⟩

/-- C4: for every database and filter set, the sum of the counts in the
ungrouped `load_time_series` output equals the `get_total_count` result for
the same filter. -/
theorem series_sum_eq_total_count (db : List Lawsuit) (s e : PgDate)
    (co ag : Option (List String)) (sr : Option (Int × Int)) :
    ((load_time_series db s e co ag sr).map Prod.snd).sum
      = get_total_count db s e co ag sr := by
  rw [load_time_series, get_total_count, List.map_map]
  have hcomp : (Prod.snd ∘ fun mo =>
      (mo, (db.filter (matchesFilter s e co ag sr)).countP (fun r => decide (r.filed.m = mo))))
      = fun mo => (db.filter (matchesFilter s e co ag sr)).countP
          (fun r => decide (r.filed.m = mo)) := rfl
  rw [hcomp]
  apply sum_countP_key _ _ _ (monthAxis_nodup s.m e.m)
  intro r hr
  have hm := matchesFilter_parts (List.of_mem_filter hr)
  have h1 : s.m ≤ r.filed.m := dateLE_month_le hm.2.2.1
  have h2 : r.filed.m ≤ e.m := dateLE_month_le hm.2.2.2
  rw [monthAxis_eq_of_le (le_trans h1 h2), mem_monthsFromTo (le_trans h1 h2)]
  exact ⟨h1, h2⟩

/-- C10: `load_metadata` returns exactly the set of distinct derived tuples
(filed date, country defaulted to Unknown, agency defaulted to Unknown,
score defaulted to 0) over the eligible records. -/
theorem load_metadata_distinct_tuples (db : List Lawsuit) :
    (∀ t, t ∈ load_metadata db ↔ ∃ r ∈ db, eligible r = true ∧ deriveMeta r = t)
    ∧ (load_metadata db).Nodup := by
  constructor
  · intro t
    rw [load_metadata, List.mem_dedup, List.mem_map]
    constructor
    · rintro ⟨r, hr, rfl⟩
      have hm := List.mem_filter.mp hr
      exact ⟨r, hm.1, hm.2, rfl⟩
    · rintro ⟨r, hr, he, rfl⟩
      exact ⟨r, List.mem_filter.mpr ⟨hr, he⟩, rfl⟩
  · exact List.nodup_dedup _

/-- C6: a record whose `gpt_summary` or `law360_data` is NULL never appears
in a page fetch result and is never counted: every row of a valid page
output is eligible, and both `get_total_count` and `load_time_series` are
unchanged by first discarding every ineligible row. -/
theorem ineligible_never_participates (db : List Lawsuit) (s e : PgDate)
    (co ag : Option (List String)) (sr : Option (Int × Int)) (page ps : Nat) :
    (∀ out, validPage db s e co ag sr page ps out → ∀ r ∈ out, eligible r = true)
    ∧ get_total_count db s e co ag sr = get_total_count (db.filter eligible) s e co ag sr
    ∧ load_time_series db s e co ag sr
        = load_time_series (db.filter eligible) s e co ag sr := by
  have hfe : db.filter (matchesFilter s e co ag sr)
      = (db.filter eligible).filter (matchesFilter s e co ag sr) := by
    rw [List.filter_filter]
    apply List.filter_congr
    intro r _
    cases hm : matchesFilter s e co ag sr r
    · simp
    · have hp := matchesFilter_parts hm
      simp [eligible, hp.1, hp.2.1]
  refine ⟨?_, ?_, ?_⟩
  · rintro out ⟨l, hperm, _, rfl⟩ r hr
    have hrl : r ∈ l := List.mem_of_mem_drop (List.mem_of_mem_take hr)
    have hrf := hperm.mem_iff.mp hrl
    have hp := matchesFilter_parts (List.of_mem_filter hrf)
    simp [eligible, hp.1, hp.2.1]
  · rw [get_total_count, get_total_count, ← hfe]
  · rw [load_time_series, load_time_series, hfe]

/-- Witness for C6: a concrete eligible record survives into a concrete
valid page output and is eligible. -/
theorem ineligible_never_participates_witness :
    validPage [⟨"w", ⟨100, 10⟩, some ⟨none, none⟩, some (), none⟩] ⟨100, 1⟩ ⟨100, 28⟩
      none none none 1 30 [⟨"w", ⟨100, 10⟩, some ⟨none, none⟩, some (), none⟩]
    ∧ eligible ⟨"w", ⟨100, 10⟩, some ⟨none, none⟩, some (), none⟩ = true := by
  have hvp : validPage [⟨"w", ⟨100, 10⟩, some ⟨none, none⟩, some (), none⟩] ⟨100, 1⟩ ⟨100, 28⟩
      none none none 1 30 [⟨"w", ⟨100, 10⟩, some ⟨none, none⟩, some (), none⟩] :=
    ⟨[⟨"w", ⟨100, 10⟩, some ⟨none, none⟩, some (), none⟩], by decide,
      List.sorted_singleton _, rfl⟩
  exact ⟨hvp,
    (ineligible_never_participates [⟨"w", ⟨100, 10⟩, some ⟨none, none⟩, some (), none⟩]
      ⟨100, 1⟩ ⟨100, 28⟩ none none none 1 30).1 _ hvp _ (List.mem_singleton.mpr rfl)⟩

/-- C7: an empty or absent countries or agencies selection, or an absent
score range, excludes no rows — the built filter equals the filter with no
restriction on that dimension, and the query results with an empty
selection agree with those with an absent one. -/
theorem empty_filters_exclude_nothing (db : List Lawsuit) (s e : PgDate)
    (co ag : Option (List String)) (sr : Option (Int × Int)) (r : Lawsuit) :
    matchesFilter s e none ag sr r = matchesNoCountry s e ag sr r
    ∧ matchesFilter s e (some []) ag sr r = matchesNoCountry s e ag sr r
    ∧ matchesFilter s e co none sr r = matchesNoAgency s e co sr r
    ∧ matchesFilter s e co (some []) sr r = matchesNoAgency s e co sr r
    ∧ matchesFilter s e co ag none r = matchesNoScore s e co ag r
    ∧ load_time_series db s e (some []) ag sr = load_time_series db s e none ag sr
    ∧ load_time_series db s e co (some []) sr = load_time_series db s e co none sr
    ∧ get_total_count db s e (some []) ag sr = get_total_count db s e none ag sr
    ∧ get_total_count db s e co (some []) sr = get_total_count db s e co none sr := by
  have hco : ∀ x, matchesFilter s e (some []) ag sr x = matchesFilter s e none ag sr x := by
    intro x
    simp [matchesFilter, truthyList]
  have hag : ∀ x, matchesFilter s e co (some []) sr x = matchesFilter s e co none sr x := by
    intro x
    simp [matchesFilter, truthyList]
  refine ⟨?_, ?_, ?_, ?_, ?_, ?_, ?_, ?_, ?_⟩
  · simp [matchesFilter, matchesNoCountry, truthyList]
  · simp [matchesFilter, matchesNoCountry, truthyList]
  · simp [matchesFilter, matchesNoAgency, truthyList]
  · simp [matchesFilter, matchesNoAgency, truthyList]
  · simp [matchesFilter, matchesNoScore, truthyList]
  · rw [load_time_series, load_time_series, List.filter_congr (fun x _ => hco x)]
  · rw [load_time_series, load_time_series, List.filter_congr (fun x _ => hag x)]
  · rw [get_total_count, get_total_count, List.filter_congr (fun x _ => hco x)]
  · rw [get_total_count, get_total_count, List.filter_congr (fun x _ => hag x)]

/-- C2 (grouped aggregator, modelled from the spec since the grouped
deployment variant is absent from src): when a grouping dimension is
requested, the bucket key set of the result is exactly the cross product of
the months in range with the distinct dimension values present among the
filtered records; every bucket carries the count of records falling in it —
an explicit 0 for missing month-value combinations, which are therefore
reported, never omitted; and the dimension is country whenever the country
selection is non-empty (precedence over agency). -/
theorem grouped_cross_product (db : List Lawsuit) (s e : PgDate) (co ag : List String)
    (sr : Option (Int × Int)) (h : dateLE s e = true) :
    (∀ mo v, (mo, v) ∈ (grouped_time_series db s e co ag sr).map (fun t => (t.1, t.2.1))
      ↔ ((s.m ≤ mo ∧ mo ≤ e.m)
          ∧ v ∈ (db.filter (specMatches s e co ag sr)).map (dimVal (chosenDim co ag))))
    ∧ (∀ t ∈ grouped_time_series db s e co ag sr,
        t.2.2 = (db.filter (specMatches s e co ag sr)).countP
          (fun r => decide (r.filed.m = t.1) && decide (dimVal (chosenDim co ag) r = t.2.1)))
    ∧ (co ≠ [] → ∀ r, dimVal (chosenDim co ag) r = countryD r) := by
  have hme := dateLE_month_le h
  refine ⟨?_, ?_, ?_⟩
  · intro mo v
    rw [grouped_time_series]
    simp only [List.mem_map, List.mem_flatMap, List.mem_dedup, mem_monthsFromTo hme,
      Prod.mk.injEq]
    constructor
    · rintro ⟨t, ⟨mo2, hmo2, v2, hv2, rfl⟩, h1, h2⟩
      subst h1; subst h2
      exact ⟨hmo2, hv2⟩
    · rintro ⟨hmo, hv⟩
      exact ⟨(mo, v, (db.filter (specMatches s e co ag sr)).countP
          (fun r => decide (r.filed.m = mo) && decide (dimVal (chosenDim co ag) r = v))),
        ⟨mo, hmo, v, hv, rfl⟩, rfl, rfl⟩
  · intro t ht
    rw [grouped_time_series] at ht
    simp only [List.mem_flatMap, List.mem_map] at ht
    obtain ⟨mo, _, v, _, rfl⟩ := ht
    rfl
  · intro hco r
    cases co with
    | nil => exact absurd rfl hco
    | cons a t => rfl

/-- Witness for C2 at a concrete input: a two-month range with a non-empty
country selection. -/
theorem grouped_cross_product_witness :
    dateLE ⟨100, 1⟩ ⟨101, 5⟩ = true
    ∧ ((∀ mo v, (mo, v) ∈ (grouped_time_series [] ⟨100, 1⟩ ⟨101, 5⟩ ["X"] [] none).map
          (fun t => (t.1, t.2.1))
        ↔ (((PgDate.mk 100 1).m ≤ mo ∧ mo ≤ (PgDate.mk 101 5).m)
            ∧ v ∈ (List.filter (specMatches ⟨100, 1⟩ ⟨101, 5⟩ ["X"] [] none) []).map
                (dimVal (chosenDim ["X"] []))))
      ∧ (∀ t ∈ grouped_time_series [] ⟨100, 1⟩ ⟨101, 5⟩ ["X"] [] none,
          t.2.2 = (List.filter (specMatches ⟨100, 1⟩ ⟨101, 5⟩ ["X"] [] none) []).countP
            (fun r => decide (r.filed.m = t.1) && decide (dimVal (chosenDim ["X"] []) r = t.2.1)))
      ∧ (["X"] ≠ [] → ∀ r, dimVal (chosenDim ["X"] []) r = countryD r)) :=
  ⟨by decide, grouped_cross_product [] ⟨100, 1⟩ ⟨101, 5⟩ ["X"] [] none (by decide)⟩

/-- C3 counterexample: two records share a filed date; with page size 1,
both one-record pages are valid outputs of the same page-1 fetch, so the
fetch does not return a uniquely determined slice of a stably tie-broken
ordering — the query has no secondary sort key. -/
theorem page_not_unique_cex :
    validPage [⟨"A", ⟨100, 10⟩, some ⟨none, none⟩, some (), none⟩,
               ⟨"B", ⟨100, 10⟩, some ⟨none, none⟩, some (), none⟩]
      ⟨100, 1⟩ ⟨100, 28⟩ none none none 1 1
      [⟨"A", ⟨100, 10⟩, some ⟨none, none⟩, some (), none⟩]
    ∧ validPage [⟨"A", ⟨100, 10⟩, some ⟨none, none⟩, some (), none⟩,
               ⟨"B", ⟨100, 10⟩, some ⟨none, none⟩, some (), none⟩]
      ⟨100, 1⟩ ⟨100, 28⟩ none none none 1 1
      [⟨"B", ⟨100, 10⟩, some ⟨none, none⟩, some (), none⟩]
    ∧ ([⟨"A", ⟨100, 10⟩, some ⟨none, none⟩, some (), none⟩] : List Lawsuit)
        ≠ [⟨"B", ⟨100, 10⟩, some ⟨none, none⟩, some (), none⟩] := by
  refine ⟨⟨[⟨"A", ⟨100, 10⟩, some ⟨none, none⟩, some (), none⟩,
            ⟨"B", ⟨100, 10⟩, some ⟨none, none⟩, some (), none⟩], by decide, by decide, rfl⟩,
          ⟨[⟨"B", ⟨100, 10⟩, some ⟨none, none⟩, some (), none⟩,
            ⟨"A", ⟨100, 10⟩, some ⟨none, none⟩, some (), none⟩], by decide, by decide, rfl⟩,
          by decide⟩

/-- C3 amended: every page-fetch output is the slice at offset
(page - 1) * pageSize of some filed-descending ordering of the filtered
rows; the output is sorted by filed date descending and its sequence of
filed dates is uniquely determined by the filter, page and page size —
but the order among rows with equal filed dates is arbitrary, since the
query uses no stable secondary tie-break key. -/
theorem page_slice_dates_determined (db : List Lawsuit) (s e : PgDate)
    (co ag : Option (List String)) (sr : Option (Int × Int)) (page ps : Nat)
    (out1 out2 : List Lawsuit)
    (h1 : validPage db s e co ag sr page ps out1)
    (h2 : validPage db s e co ag sr page ps out2) :
    List.Sorted filedDesc out1
    ∧ out1.map (fun r => r.filed) = out2.map (fun r => r.filed) := by
  obtain ⟨l1, hp1, hs1, rfl⟩ := h1
  obtain ⟨l2, hp2, hs2, rfl⟩ := h2
  constructor
  · exact List.Pairwise.sublist ((List.take_sublist _ _).trans (List.drop_sublist _ _)) hs1
  · have hperm : l1.Perm l2 := hp1.trans hp2.symm
    have hmp : (l1.map (fun r => r.filed)).Perm (l2.map (fun r => r.filed)) := hperm.map _
    have hms1 : List.Sorted (fun a b : PgDate => dateLE b a = true)
        (l1.map (fun r => r.filed)) := by
      rw [List.Sorted, List.pairwise_map]
      exact hs1
    have hms2 : List.Sorted (fun a b : PgDate => dateLE b a = true)
        (l2.map (fun r => r.filed)) := by
      rw [List.Sorted, List.pairwise_map]
      exact hs2
    have heq : l1.map (fun r => r.filed) = l2.map (fun r => r.filed) :=
      @List.eq_of_perm_of_sorted PgDate (fun a b => dateLE b a = true)
        ⟨fun a b x y => dateLE_antisymm y x⟩ _ _ hmp hms1 hms2
    rw [List.map_take, List.map_drop, List.map_take, List.map_drop, heq]

/-- Witness for C3 amended: two concrete valid outputs of the same fetch
have the same filed-date sequence. -/
theorem page_slice_dates_determined_witness :
    validPage [⟨"C", ⟨100, 11⟩, some ⟨none, none⟩, some (), none⟩,
               ⟨"D", ⟨100, 11⟩, some ⟨none, none⟩, some (), none⟩]
      ⟨100, 1⟩ ⟨100, 28⟩ none none none 1 1
      [⟨"C", ⟨100, 11⟩, some ⟨none, none⟩, some (), none⟩]
    ∧ validPage [⟨"C", ⟨100, 11⟩, some ⟨none, none⟩, some (), none⟩,
               ⟨"D", ⟨100, 11⟩, some ⟨none, none⟩, some (), none⟩]
      ⟨100, 1⟩ ⟨100, 28⟩ none none none 1 1
      [⟨"D", ⟨100, 11⟩, some ⟨none, none⟩, some (), none⟩]
    ∧ (List.Sorted filedDesc [⟨"C", ⟨100, 11⟩, some ⟨none, none⟩, some (), none⟩]
      ∧ ([⟨"C", ⟨100, 11⟩, some ⟨none, none⟩, some (), none⟩] : List Lawsuit).map
          (fun r => r.filed)
        = ([⟨"D", ⟨100, 11⟩, some ⟨none, none⟩, some (), none⟩] : List Lawsuit).map
          (fun r => r.filed)) := by
  have hv1 : validPage [⟨"C", ⟨100, 11⟩, some ⟨none, none⟩, some (), none⟩,
               ⟨"D", ⟨100, 11⟩, some ⟨none, none⟩, some (), none⟩]
      ⟨100, 1⟩ ⟨100, 28⟩ none none none 1 1
      [⟨"C", ⟨100, 11⟩, some ⟨none, none⟩, some (), none⟩] :=
    ⟨[⟨"C", ⟨100, 11⟩, some ⟨none, none⟩, some (), none⟩,
      ⟨"D", ⟨100, 11⟩, some ⟨none, none⟩, some (), none⟩], by decide, by decide, rfl⟩
  have hv2 : validPage [⟨"C", ⟨100, 11⟩, some ⟨none, none⟩, some (), none⟩,
               ⟨"D", ⟨100, 11⟩, some ⟨none, none⟩, some (), none⟩]
      ⟨100, 1⟩ ⟨100, 28⟩ none none none 1 1
      [⟨"D", ⟨100, 11⟩, some ⟨none, none⟩, some (), none⟩] :=
    ⟨[⟨"D", ⟨100, 11⟩, some ⟨none, none⟩, some (), none⟩,
      ⟨"C", ⟨100, 11⟩, some ⟨none, none⟩, some (), none⟩], by decide, by decide, rfl⟩
  exact ⟨hv1, hv2,
    page_slice_dates_determined _ ⟨100, 1⟩ ⟨100, 28⟩ none none none 1 1 _ _ hv1 hv2⟩

/-- C8 counterexample: with start in month 24273 and end in the earlier
month 24271 (start > end), `load_time_series` returns the one-bucket series
for the truncated start month rather than an empty sequence. -/
theorem aggregator_reversed_range_cex :
    dateLE ⟨24273, 5⟩ ⟨24271, 10⟩ = false
    ∧ load_time_series [] ⟨24273, 5⟩ ⟨24271, 10⟩ none none none = [(24273, 0)]
    ∧ load_time_series [] ⟨24273, 5⟩ ⟨24271, 10⟩ none none none ≠ [] :=
  ⟨by decide, by decide, by decide⟩

/-- C8 amended: for every start > end the aggregator returns exactly the
single bucket (truncated start month, 0) — never an empty sequence, but
also never a reversed or infinite axis, and the count is 0 because the
BETWEEN clause with inverted bounds matches no record. -/
theorem reversed_range_single_bucket (db : List Lawsuit) (s e : PgDate)
    (co ag : Option (List String)) (sr : Option (Int × Int))
    (h : dateLE s e = false) :
    load_time_series db s e co ag sr = [(s.m, 0)] := by
  have hme : e.m ≤ s.m := by
    rcases le_or_lt e.m s.m with h1 | h1
    · exact h1
    · have ht : dateLE s e = true := by
        simp only [dateLE, Bool.or_eq_true, decide_eq_true_eq]
        left
        exact h1
      simp [ht] at h
  have hfil : db.filter (matchesFilter s e co ag sr) = [] := by
    rw [List.filter_eq_nil_iff]
    intro r _ hm
    have hp := matchesFilter_parts hm
    have hds := dateLE_trans hp.2.2.1 hp.2.2.2
    rw [h] at hds
    simp at hds
  rw [load_time_series, monthAxis_of_ge hme, hfil]
  simp

/-- Witness for C8 amended at a concrete reversed range. -/
theorem reversed_range_single_bucket_witness :
    dateLE ⟨200, 7⟩ ⟨199, 2⟩ = false
    ∧ load_time_series [] ⟨200, 7⟩ ⟨199, 2⟩ none none none = [((PgDate.mk 200 7).m, 0)] :=
  ⟨by decide, reversed_range_single_bucket [] ⟨200, 7⟩ ⟨199, 2⟩ none none none (by decide)⟩

/-- C5: the source interpolates filter values into the query text with no
escaping, so a country value containing quote characters is re-lexed as
several literals.  With the single supplied value a-quote-comma-quote-b,
the eligible in-range record whose country field is exactly that value is
not counted, while a record whose country is the plain string b is — the
matched set is not the set of records whose field equals a supplied value,
on either side. -/
theorem injection_alters_matched_set :
    get_total_count [⟨"inj", ⟨100, 10⟩,
        some ⟨some (String.mk ['a', sqlQuote, ',', sqlQuote, 'b']), none⟩, some (), none⟩]
      ⟨100, 1⟩ ⟨100, 28⟩ (some [String.mk ['a', sqlQuote, ',', sqlQuote, 'b']]) none none = 0
    ∧ get_total_count [⟨"b", ⟨100, 10⟩, some ⟨some ("b"), none⟩, some (), none⟩]
        ⟨100, 1⟩ ⟨100, 28⟩ (some [String.mk ['a', sqlQuote, ',', sqlQuote, 'b']]) none none = 1
    ∧ String.mk ['a', sqlQuote, ',', sqlQuote, 'b']
        ∈ [String.mk ['a', sqlQuote, ',', sqlQuote, 'b']]
    ∧ "b" ∉ [String.mk ['a', sqlQuote, ',', sqlQuote, 'b']]
    ∧ eligible ⟨"inj", ⟨100, 10⟩,
        some ⟨some (String.mk ['a', sqlQuote, ',', sqlQuote, 'b']), none⟩, some (), none⟩ = true
    ∧ dateLE ⟨100, 1⟩ ⟨100, 10⟩ = true ∧ dateLE ⟨100, 10⟩ ⟨100, 28⟩ = true :=
  ⟨by decide, by decide, by decide, by decide, by decide, by decide, by decide⟩

/-- C9: a record whose `gpt_summary` lacks both the country and the score
key is eligible and in range, and `load_metadata` derives country Unknown
and score 0 for it; yet a country filter selecting Unknown and a score
filter containing 0 both exclude it, because the WHERE clauses compare the
raw NULL projection without applying the defaults. -/
theorem null_fields_excluded_not_defaulted :
    load_metadata [⟨"n", ⟨100, 10⟩, some ⟨none, none⟩, some (), none⟩]
      = [(⟨100, 10⟩, "Unknown", "Unknown", 0)]
    ∧ get_total_count [⟨"n", ⟨100, 10⟩, some ⟨none, none⟩, some (), none⟩]
        ⟨100, 1⟩ ⟨100, 28⟩ (some ["Unknown"]) none none = 0
    ∧ get_total_count [⟨"n", ⟨100, 10⟩, some ⟨none, none⟩, some (), none⟩]
        ⟨100, 1⟩ ⟨100, 28⟩ none none (some (0, 5)) = 0
    ∧ get_total_count [⟨"n", ⟨100, 10⟩, some ⟨none, none⟩, some (), none⟩]
        ⟨100, 1⟩ ⟨100, 28⟩ none none none = 1
    ∧ eligible ⟨"n", ⟨100, 10⟩, some ⟨none, none⟩, some (), none⟩ = true
    ∧ dateLE ⟨100, 1⟩ ⟨100, 10⟩ = true ∧ dateLE ⟨100, 10⟩ ⟨100, 28⟩ = true :=
  ⟨by decide, by decide, by decide, by decide, by decide, by decide, by decide⟩

end LawsuitDash
